import Mathlib

/-!
Verification of the BitgetBot decision pipeline.

This file gives a shallow embedding of the pipeline's data model and
operations (market-cap map resolution and merge, symbol normalisation,
candidate filtering, 24h-change parsing, indicator helpers, pattern
detection and signal scoring) and proves the testable properties stated
about them.

Modelling conventions:
- Python dicts are represented as association lists `List (String × α)`
  with distinct keys in insertion order; `List.lookup` is `dict.get`.
- Numeric values (prices, market caps, indicator values) are modelled
  as rationals `ℚ`.
- Fallible code (list indexing that can raise, parsers) returns `Option`.
-/

namespace BitgetBot

/-- A symbol→market-cap dictionary (Python `Dict[str, float]`):
association list with distinct keys in insertion order. -/
abbrev CapMap := List (String × ℚ)

/-- Python `e.update(g)` on dicts: keys already in `e` keep their position
but take `g`'s value; keys of `g` absent from `e` are appended in `g`'s
order. -/
def dictUpdate (e g : CapMap) : CapMap :=
  (e.map fun p =>
    match g.lookup p.1 with
    | some v => (p.1, v)
    | none => p) ++
  g.filter fun p => (e.lookup p.1).isNone

/-- The market-cap merge step of `run_once` (bot.py): the exchange-scoped
map `cg_caps` is kept as-is when it has at least 50 entries; otherwise the
generic map is computed and `cg_caps.update(generic_caps)` is executed. -/
def mergeCaps (cg_caps generic_caps : CapMap) : CapMap :=
  if cg_caps.length < 50 then dictUpdate cg_caps generic_caps else cg_caps

/-! ### Generic market-cap build (`build_symbol_marketcap_map`, data_sources.py)

The pagination loop over `coingecko_markets` is modelled by supplying the
successfully fetched pages as a `List (List CGItem)` (a source error ends
pagination, keeping the pages fetched so far). -/

/-- One record of a CoinGecko `/coins/markets` page: `symbol` and an
optional `market_cap` (records with `market_cap is None` are skipped). -/
structure CGItem where
  symbol : String
  market_cap : Option ℚ
deriving DecidableEq

/-- Python `str.upper()` (ASCII), modelled character-wise.  (`String.toUpper`
from the library is not used because its `mapAux` recursion does not reduce
in the kernel.) -/
def pyUpper (s : String) : String := String.mk (s.data.map Char.toUpper)

/-- Append `v` to the value list of every binding of key `s` (the
accumulator dict has one binding per key, so this is the in-place
`caps[s].append(v)` of an existing key). -/
def bumpKey (s : String) (v : ℚ) : List (String × List ℚ) →
    List (String × List ℚ)
  | [] => []
  | (k, l) :: rest =>
    if k = s then (k, l ++ [v]) :: bumpKey s v rest
    else (k, l) :: bumpKey s v rest

/-- Python `caps.setdefault(sym, []).append(v)`: append `v` to the list
bound to `sym`, creating the binding (at the end, as dicts append new
keys) when absent. -/
def appendCap (caps : List (String × List ℚ)) (sym : String) (v : ℚ) :
    List (String × List ℚ) :=
  match caps.lookup sym with
  | some _ => bumpKey sym v caps
  | none => caps ++ [(sym, [v])]

/-- The inner loop of `build_symbol_marketcap_map` over one page's items:
uppercase the symbol, skip records without a market cap, and accumulate. -/
def collectItems (caps : List (String × List ℚ)) :
    List CGItem → List (String × List ℚ)
  | [] => caps
  | it :: rest =>
    match it.market_cap with
    | none => collectItems caps rest
    | some v => collectItems (appendCap caps (pyUpper it.symbol) v) rest

/-- The outer pagination loop of `build_symbol_marketcap_map`. -/
def collectPages (caps : List (String × List ℚ)) :
    List (List CGItem) → List (String × List ℚ)
  | [] => caps
  | pg :: rest => collectPages (collectItems caps pg) rest

/-- Insertion step of an ascending sort (Python `sorted`). -/
def insertSorted (x : ℚ) : List ℚ → List ℚ
  | [] => [x]
  | y :: ys => if x ≤ y then x :: y :: ys else y :: insertSorted x ys

/-- Ascending sort of the observed values (Python `sorted(lst)`). -/
def sortAsc (l : List ℚ) : List ℚ := l.foldr insertSorted []

/-- The duplicate-resolution step of `build_symbol_marketcap_map`:
`s = sorted(lst); mid = s[len(s)//2]` — the element at index `⌊n/2⌋` of
the ascending-sorted list (the upper median). -/
def resolveMid (l : List ℚ) : ℚ := (sortAsc l).getD (l.length / 2) 0

/-- `build_symbol_marketcap_map` (data_sources.py): accumulate every
observed symbol→cap pair over the pages, then map each symbol to
`resolveMid` of its observed values. -/
def build_symbol_marketcap_map (pages : List (List CGItem)) : CapMap :=
  (collectPages [] pages).map fun p => (p.1, resolveMid p.2)

/-- All market-cap values observed for (uppercased) symbol `sym` in a
stream of records, in encounter order. -/
def observedVals (items : List CGItem) (sym : String) : List ℚ :=
  items.filterMap fun it =>
    match it.market_cap with
    | none => none
    | some v => if pyUpper it.symbol = sym then some v else none

/-- Modelled from the spec: the statistical median of a list of values —
middle element of the sorted list for odd length, mean of the two middle
elements for even length.  (The spec and claim C2 say the generic build
resolves duplicates "by taking the median"; this definition follows those
words, to be compared with `resolveMid` from the source.) -/
def statMedian (l : List ℚ) : ℚ :=
  let s := sortAsc l
  if l.length % 2 = 1 then s.getD (l.length / 2) 0
  else (s.getD (l.length / 2 - 1) 0 + s.getD (l.length / 2) 0) / 2

/-- Values bound to `sym` in the accumulator (empty list when absent). -/
def lookVals (caps : List (String × List ℚ)) (sym : String) : List ℚ :=
  (caps.lookup sym).getD []

def c2Pages : List (List CGItem) :=
  [[⟨"a", some 30⟩, ⟨"a", some 10⟩], [⟨"A", some 20⟩]]

/-! ### Symbol normalisation and candidate filtering (`filter_small_caps`)

Python string primitives are modelled over `List Char` because the
library's `String` operations do not reduce in the kernel. -/

/-- Is `p` an initial segment of the second list? -/
def startsWithL : List Char → List Char → Bool
  | [], _ => true
  | _ :: _, [] => false
  | p :: ps, c :: cs => p == c && startsWithL ps cs

/-- Python `s.endswith(pat)`. -/
def endsWithL (s pat : List Char) : Bool :=
  startsWithL pat.reverse s.reverse

/-- Scanner for Python `s.replace(pat, "")`: while `skip` is positive the
character belongs to an already-matched occurrence and is swallowed; at
`skip = 0` a (nonempty) `pat` matching at the current position is deleted
by swallowing its first character and setting `skip` to the remaining
pattern length, giving the non-overlapping left-to-right semantics of
`str.replace`.  (Structural recursion on the scanned list, so that the
kernel can evaluate it.) -/
def removeAllAux (pat : List Char) (skip : ℕ) : List Char → List Char
  | [] => []
  | c :: rest =>
    match skip with
    | n + 1 => removeAllAux pat n rest
    | 0 =>
      if pat ≠ [] ∧ startsWithL pat (c :: rest) = true then
        removeAllAux pat (pat.length - 1) rest
      else
        c :: removeAllAux pat 0 rest

/-- Python `s.replace(pat, "")` for a nonempty `pat`: delete every
non-overlapping occurrence of `pat`, scanning left to right. -/
def removeAll (pat : List Char) (s : List Char) : List Char :=
  removeAllAux pat 0 s

/-- The symbol-cleaning step of `filter_small_caps` (data_sources.py):
`s = symbol.replace("-", "").replace("_SPBL", "")`. -/
def cleanSymbol (symbol : String) : List Char :=
  removeAll "_SPBL".data (removeAll "-".data symbol.data)

/-- The base-asset extraction inlined in `filter_small_caps`
(data_sources.py lines 210–226) followed by the `base.upper()` applied at
every use site: clean the symbol, strip a quote suffix (`USDT`, `USDC`,
`USD`, in that order), else take the first 5 characters; an empty input
symbol or an empty base yields no base (`if not base: continue`). -/
def normalize (symbol : String) : Option String :=
  if symbol = "" then none
  else
    let s := cleanSymbol symbol
    let base :=
      if endsWithL s "USDT".data then s.take (s.length - 4)
      else if endsWithL s "USDC".data then s.take (s.length - 4)
      else if endsWithL s "USD".data then s.take (s.length - 3)
      else s.take 5
    if base = [] then none else some (pyUpper (String.mk base))

/-- Modelled from the spec (the wording of claim C7): first remove `-`
separators and the `_SPBL` *suffix*, then strip a quote-asset suffix
(`USDT`, `USDC`, `USD` in that order), else take the first 5 characters
of the cleaned string; output uppercased. -/
def normalizeSpec (symbol : String) : Option String :=
  if symbol = "" then none
  else
    let s0 := removeAll "-".data symbol.data
    let s := if endsWithL s0 "_SPBL".data then s0.take (s0.length - 5) else s0
    let base :=
      if endsWithL s "USDT".data then s.take (s.length - 4)
      else if endsWithL s "USDC".data then s.take (s.length - 4)
      else if endsWithL s "USD".data then s.take (s.length - 3)
      else s.take 5
    if base = [] then none else some (pyUpper (String.mk base))

/-- Modelled from the spec, as amended by claim C7's counterexample:
identical to `normalizeSpec` except that *every* occurrence of `_SPBL` is
removed, not only a trailing one. -/
def normalizeSpecAmended (symbol : String) : Option String :=
  if symbol = "" then none
  else
    let s := removeAll "_SPBL".data (removeAll "-".data symbol.data)
    let base :=
      if endsWithL s "USDT".data then s.take (s.length - 4)
      else if endsWithL s "USDC".data then s.take (s.length - 4)
      else if endsWithL s "USD".data then s.take (s.length - 3)
      else s.take 5
    if base = [] then none else some (pyUpper (String.mk base))

/-- A raw 24h-change field value as delivered by the ticker source, by the
shape `pick_symbols` distinguishes: a string ending in `%` (with the parse
of the part before the `%`, `none` when that part is not numeric), a value
parseable as a float (bare number or numeric string), or an unparseable
value (`float()` raises). -/
inductive RawVal where
  | pctStr (inner : Option ℚ)
  | numLike (q : ℚ)
  | unparseable
deriving DecidableEq

/-- One Bitget ticker record (a Python dict): the fields read by
`pick_symbols` and `filter_small_caps`, plus the keys those functions add
(`_24h_change_pct`, `_base`, `_market_cap`). -/
structure Ticker where
  symbol : Option String := none
  instId : Option String := none
  priceChgPct : Option RawVal := none
  changePercent : Option RawVal := none
  chgPct : Option RawVal := none
  chg24 : Option ℚ := none
  base : Option String := none
  market_cap : Option ℚ := none
deriving DecidableEq

/-- `t.get("symbol") or t.get("instId") or ""` — the first truthy
(present and non-empty) of the two fields, else the empty string. -/
def tickerSymbol (t : Ticker) : String :=
  if t.symbol.getD "" ≠ "" then t.symbol.getD "" else t.instId.getD ""

/-- The per-ticker body of the `filter_small_caps` loop: extract a base
symbol, drop the ticker when there is none, when the market-cap mapping
has no entry for it, or when the cap is outside `[min_cap, max_cap]`;
otherwise annotate the ticker with `_base` and `_market_cap`. -/
def filter_one (min_cap max_cap : ℚ) (cg_symbol_caps : CapMap) (t : Ticker) :
    Option Ticker :=
  match normalize (tickerSymbol t) with
  | none => none
  | some b =>
    match cg_symbol_caps.lookup b with
    | none => none
    | some cap =>
      if min_cap ≤ cap ∧ cap ≤ max_cap then
        some { t with base := some b, market_cap := some cap }
      else none

/-- `filter_small_caps` (data_sources.py). -/
def filter_small_caps (bitget_tickers : List Ticker) (min_cap max_cap : ℚ)
    (cg_symbol_caps : CapMap) : List Ticker :=
  bitget_tickers.filterMap (filter_one min_cap max_cap cg_symbol_caps)

/-- The 24h-change parse of one candidate field inside `pick_symbols`
(bot.py): a string ending in `%` is parsed from the part before the `%`;
any other value is parsed as a float and multiplied by 100 when its
absolute value is below 2 (else by 1); a failed parse moves on to the
next field name. -/
def tryParse : RawVal → Option ℚ
  | .pctStr (some q) => some q
  | .pctStr none => none
  | .numLike q => some (q * (if |q| < 2 then 100 else 1))
  | .unparseable => none

/-- The field-alias loop of `pick_symbols`: try `priceChgPct`,
`changePercent`, `chgPct` in order; a missing key or a failed parse falls
through to the next; the result is `None` when all fail. -/
def extract_change (t : Ticker) : Option ℚ :=
  match t.priceChgPct.bind tryParse with
  | some q => some q
  | none =>
    match t.changePercent.bind tryParse with
    | some q => some q
    | none => t.chgPct.bind tryParse

/-- `pick_symbols` (bot.py): annotate each ticker with its parsed 24h
change, filter by market-cap band, then drop tickers whose known change
exceeds the 24h-gain ceiling (`if chg is not None and chg > ceiling`). -/
def pick_symbols (tickers : List Ticker) (min_cap max_cap gain_ceiling : ℚ)
    (cg_caps : CapMap) : List Ticker :=
  let withChg := tickers.map fun t => { t with chg24 := extract_change t }
  let small_caps := filter_small_caps withChg min_cap max_cap cg_caps
  small_caps.filter fun t =>
    match t.chg24 with
    | some c => ! decide (c > gain_ceiling)
    | none => true

def c6t : Ticker := { symbol := some "ABCUSDT" }

def c5t : Ticker := { symbol := some "ABCUSDT", priceChgPct := some .unparseable }

def c5tAnn : Ticker :=
  { symbol := some "ABCUSDT", priceChgPct := some .unparseable,
    base := some "ABC", market_cap := some 150 }

/-! ### Indicator engine, pattern detector and signal scorer

`compute_signal` (signals.py) operates on the indicator-augmented frame
produced by `add_indicators` (indicators.py).  The numeric indicator
columns (RSI, MACD, EMAs — computed by the external `ta` library — and
the pandas 20-period rolling volume mean) are floating-point series
produced outside the decision logic; the augmented frame is therefore
modelled as a list of rows carrying those columns as given rational
values, with `vol_ma20 = none` standing for the `NaN` prefix of a
rolling mean.  All claims below quantify over these augmented frames. -/

/-- One row of the indicator-augmented OHLCV frame. -/
structure IndRow where
  close : ℚ
  high : ℚ
  volume : ℚ
  rsi : ℚ
  macd : ℚ
  macd_signal : ℚ
  ema20 : ℚ
  ema50 : ℚ
  ema200 : ℚ
  vol_ma20 : Option ℚ
deriving DecidableEq

/-- Pandas `Series.max()` over a column slice: `none` on an empty slice
(`NaN`, which makes any comparison false), else the maximum. -/
def listMax : List ℚ → Option ℚ
  | [] => none
  | x :: xs =>
    some (match listMax xs with
          | none => x
          | some m => max x m)

/-- The `high` column of the slice `df["high"].iloc[-(lookback+1):-1]`:
the `lookback` candles preceding the latest one. -/
def highWindow (df : List IndRow) (lookback : ℕ) : List ℚ :=
  ((df.drop (df.length - (lookback + 1))).take lookback).map IndRow.high

/-- `recent_resistance_break` (indicators.py): false when fewer than
`lookback + 1` rows; otherwise true iff the latest close strictly
exceeds the maximum high of the `lookback` preceding candles (an empty
slice gives `NaN`, making the comparison false). -/
def recent_resistance_break (df : List IndRow) (lookback : ℕ) : Bool :=
  if df.length < lookback + 1 then false
  else
    match listMax (highWindow df lookback), (df.map IndRow.close).getLast? with
    | some m, some c => decide (c > m)
    | _, _ => false

/-- `volume_spike` (indicators.py): `none` models the `iloc[-1]` raise on
an empty frame; a `NaN` rolling mean gives `false`; otherwise true iff
the latest volume exceeds `multiple` times the rolling mean. -/
def volume_spike (df : List IndRow) (multiple : ℚ) : Option Bool :=
  match df.getLast? with
  | none => none
  | some r =>
    match r.vol_ma20 with
    | none => some false
    | some m => some (decide (r.volume > multiple * m))

/-- The observable effect of one candlestick predicate of the external
`candlestick` library on a frame copy: either raise (`none`), or finish
leaving a set of named boolean columns in the copy (the library
convention is to add a column named after the pattern; the original
OHLCV/indicator column names never collide with pattern names, so only
the added columns are modelled). -/
def PatternFn : Type := List IndRow → Option (List (String × List Bool))

/-- The module-level `_PATTERN_FUNCS` dict built in patterns.py when the
candlestick module imported: one `getattr(...)` result per pattern name,
`none` when the function is missing from the module. -/
structure PatternFuncs where
  bullish_engulfing : Option PatternFn
  hammer : Option PatternFn
  morning_star : Option PatternFn
  three_white_soldiers : Option PatternFn

/-- `BULLISH_PATTERNS` (patterns.py). -/
def BULLISH_PATTERNS : List String :=
  ["bullish_engulfing", "hammer", "morning_star", "three_white_soldiers"]

/-- The entry of `_PATTERN_FUNCS` for a given pattern name. -/
def PatternFuncs.fnFor (pf : PatternFuncs) (name : String) : Option PatternFn :=
  if name = "bullish_engulfing" then pf.bullish_engulfing
  else if name = "hammer" then pf.hammer
  else if name = "morning_star" then pf.morning_star
  else if name = "three_white_soldiers" then pf.three_white_soldiers
  else none

/-- One iteration of the `detect_bullish_patterns` loop: a missing
function (`fn is None`) is skipped; a raising function (`except`) leaves
the result false; otherwise the result is true iff the frame copy has a
column named after the pattern whose last entry is true (an empty column
raises at `iloc[-1]`, which the `except` also turns into false). -/
def evalPattern (df : List IndRow) (name : String) : Option PatternFn → Bool
  | none => false
  | some fn =>
    match fn df with
    | none => false
    | some cols =>
      match cols.lookup name with
      | none => false
      | some col => col.getLast? == some true

/-- `detect_bullish_patterns` (patterns.py): all-false when the
candlestick module is unavailable (`_PATTERN_FUNCS` empty, modelled as
`env = none`); otherwise each of the four patterns is evaluated
independently. -/
def detect_bullish_patterns (env : Option PatternFuncs) (df : List IndRow) :
    List (String × Bool) :=
  match env with
  | none => BULLISH_PATTERNS.map fun n => (n, false)
  | some pf =>
    [("bullish_engulfing", evalPattern df "bullish_engulfing" pf.bullish_engulfing),
     ("hammer", evalPattern df "hammer" pf.hammer),
     ("morning_star", evalPattern df "morning_star" pf.morning_star),
     ("three_white_soldiers", evalPattern df "three_white_soldiers"
        pf.three_white_soldiers)]

/-- The headline indicator snapshot returned by `compute_signal`. -/
structure IndicatorSnapshot where
  rsi : ℚ
  macd : ℚ
  macd_signal : ℚ
  ema20 : ℚ
  ema50 : ℚ
  ema200 : ℚ
deriving DecidableEq

/-- The dict returned by `compute_signal`. -/
structure Signal where
  score : ℕ
  conditions : List (String × Bool)
  patterns : List (String × Bool)
  indicators : IndicatorSnapshot
  price : ℚ
deriving DecidableEq

/-- The `conds["rsi_cross_50"]` assignment of `compute_signal`, guarded
by `len(df1) >= 2` (the `some` case of `df1.dropLast.getLast?` is that
guard; `rp` is the bar one step prior, `r1` the current bar): true iff
the previous RSI was `≤ 50` and the current RSI lies strictly in
`(50, 80)`; false when the guard fails. -/
def rsi_cross_cond (df1 : List IndRow) (r1 : IndRow) : Bool :=
  match df1.dropLast.getLast? with
  | some rp =>
    decide (rp.rsi ≤ 50) && (decide (50 < r1.rsi) && decide (r1.rsi < 80))
  | none => false

/-- The `conds["macd_bullish_cross"]` assignment of `compute_signal`,
under the same `len(df1) >= 2` guard: the sign of (MACD − signal) flips
from `≤ 0` to `> 0`. -/
def macd_cross_cond (df1 : List IndRow) (r1 : IndRow) : Bool :=
  match df1.dropLast.getLast? with
  | some rp =>
    decide (rp.macd - rp.macd_signal ≤ 0) &&
      decide (r1.macd - r1.macd_signal > 0)
  | none => false

/-- `compute_signal` (signals.py) on the indicator-augmented frames.
`none` models the unguarded `iloc[-1]` accesses raising on an empty
frame.  The ten condition names are the dict literal keys followed by
the two `update` calls, in insertion order. -/
def compute_signal (env : Option PatternFuncs) (df1 df15 : List IndRow) :
    Option Signal := do
  let r1 ← df1.getLast?
  let r15 ← df15.getLast?
  let patterns := detect_bullish_patterns env df1
  let vs ← volume_spike df15 2
  let conds : List (String × Bool) :=
    [("rsi_cross_50", rsi_cross_cond df1 r1),
     ("macd_bullish_cross", macd_cross_cond df1 r1),
     ("price_above_ema20_50",
        decide (r1.close > r1.ema20) && decide (r1.close > r1.ema50)),
     ("ema20_gt_ema50", decide (r1.ema20 > r1.ema50)),
     ("bullish_pattern", patterns.any fun p => p.2),
     ("vol_spike_15m", vs),
     ("rsi_15m_gt_50", decide (r15.rsi > 50)),
     ("break_resistance_15m", recent_resistance_break df15 20),
     ("lunar_trending", false),
     ("news_positive", false)]
  some { score := conds.countP fun p => p.2,
         conditions := conds,
         patterns := patterns,
         indicators :=
           { rsi := r1.rsi, macd := r1.macd, macd_signal := r1.macd_signal,
             ema20 := r1.ema20, ema50 := r1.ema50, ema200 := r1.ema200 },
         price := r1.close }

/-- The ten condition names, in the insertion order of `compute_signal`. -/
def condNames : List String :=
  ["rsi_cross_50", "macd_bullish_cross", "price_above_ema20_50",
   "ema20_gt_ema50", "bullish_pattern", "vol_spike_15m", "rsi_15m_gt_50",
   "break_resistance_15m", "lunar_trending", "news_positive"]

def c8row5 : IndRow :=
  { close := 5, high := 5, volume := 1, rsi := 50, macd := 0,
    macd_signal := 0, ema20 := 0, ema50 := 0, ema200 := 0, vol_ma20 := none }

def c8row7 : IndRow :=
  { close := 7, high := 9, volume := 1, rsi := 50, macd := 0,
    macd_signal := 0, ema20 := 0, ema50 := 0, ema200 := 0, vol_ma20 := none }

/-- A minimal augmented row used by concrete scorer runs: constant
price/volume columns and a given RSI. -/
def mkRow (rsi : ℚ) : IndRow :=
  { close := 1, high := 1, volume := 1, rsi := rsi, macd := 0,
    macd_signal := 0, ema20 := 0, ema50 := 0, ema200 := 0, vol_ma20 := none }

/-- The condition set `compute_signal` produces on the two-row slow frame
`[mkRow x, mkRow y]` and one-row fast frame `[mkRow z]`. -/
def condsRsi (x y z : ℚ) : List (String × Bool) :=
  [("rsi_cross_50", decide (x ≤ 50) && (decide (50 < y) && decide (y < 80))),
   ("macd_bullish_cross",
      decide ((0 : ℚ) - 0 ≤ 0) && decide ((0 : ℚ) - 0 > 0)),
   ("price_above_ema20_50", decide ((1 : ℚ) > 0) && decide ((1 : ℚ) > 0)),
   ("ema20_gt_ema50", decide ((0 : ℚ) > 0)),
   ("bullish_pattern", false),
   ("vol_spike_15m", false),
   ("rsi_15m_gt_50", decide (z > 50)),
   ("break_resistance_15m", false),
   ("lunar_trending", false),
   ("news_positive", false)]

/-- The signal `compute_signal` produces on those frames. -/
def sigRsi (x y z : ℚ) : Signal :=
  { score := (condsRsi x y z).countP fun p => p.2,
    conditions := condsRsi x y z,
    patterns := BULLISH_PATTERNS.map fun n => (n, false),
    indicators := { rsi := y, macd := 0, macd_signal := 0, ema20 := 0,
                    ema50 := 0, ema200 := 0 },
    price := 1 }

def c9fail : PatternFn := fun _ => none

def c9pf : PatternFuncs :=
  { bullish_engulfing := none, hammer := some c9fail,
    morning_star := none, three_white_soldiers := none }

def c9pf2 : PatternFuncs :=
  { bullish_engulfing := some c9fail, hammer := some c9fail,
    morning_star := none, three_white_soldiers := none }

/-! ### Theorems -/

theorem lookup_map_override (g : CapMap) (k : String) :
    ∀ e : CapMap,
      (e.map fun p =>
        match g.lookup p.1 with
        | some v => (p.1, v)
        | none => p).lookup k =
      (e.lookup k).map fun w => (g.lookup k).getD w := by
  intro e
  induction e with
  | nil => simp
  | cons a e ih =>
    obtain ⟨ak, av⟩ := a
    by_cases hk : ak = k
    · subst hk
      cases hg : g.lookup ak <;> simp [List.lookup, hg]
    · have hbeq : (ak == k) = false := by simp [hk]
      have hbeq2 : (k == ak) = false := by simp [Ne.symm hk]
      cases hg : g.lookup ak <;>
        simp [List.lookup, hg, hbeq, hbeq2, ih]

theorem lookup_filter_absent (e : CapMap) (k : String) :
    ∀ g : CapMap,
      (g.filter fun p => (e.lookup p.1).isNone).lookup k =
      if (e.lookup k).isNone then g.lookup k else none := by
  intro g
  induction g with
  | nil => simp
  | cons a g ih =>
    obtain ⟨ak, av⟩ := a
    by_cases hk : ak = k
    · subst hk
      cases he : e.lookup ak <;>
        simp [List.lookup, List.filter, he, ih]
    · have hbeq2 : (k == ak) = false := by simp [Ne.symm hk]
      cases hq : (e.lookup ak).isNone <;>
        simp [List.filter, hq, List.lookup, hbeq2, ih]

theorem lookup_append {α : Type} (l₁ l₂ : List (String × α)) (k : String) :
    (l₁ ++ l₂).lookup k = (l₁.lookup k).or (l₂.lookup k) := by
  induction l₁ with
  | nil => simp
  | cons a l ih =>
    obtain ⟨ak, av⟩ := a
    by_cases hk : ak = k
    · subst hk
      simp [List.lookup]
    · have hbeq2 : (k == ak) = false := by simp [Ne.symm hk]
      simp [List.lookup, hbeq2, ih]

theorem dictUpdate_lookup (e g : CapMap) (k : String) :
    (dictUpdate e g).lookup k = (g.lookup k).or (e.lookup k) := by
  unfold dictUpdate
  rw [lookup_append, lookup_map_override, lookup_filter_absent]
  cases he : e.lookup k <;> cases hg : g.lookup k <;> simp [he, hg]

theorem bumpKey_lookup (s : String) (v : ℚ) (sym : String) :
    ∀ caps : List (String × List ℚ),
      (bumpKey s v caps).lookup sym =
        (caps.lookup sym).map fun l => if sym = s then l ++ [v] else l := by
  intro caps
  induction caps with
  | nil => rfl
  | cons a rest ih =>
    obtain ⟨ak, av⟩ := a
    simp only [bumpKey]
    by_cases hs : ak = s
    · rw [if_pos hs]
      by_cases hak : sym = ak
      · subst hak
        simp [List.lookup, hs]
      · have h2 : (sym == ak) = false := by simp [hak]
        simp [List.lookup, h2, ih]
    · rw [if_neg hs]
      by_cases hak : sym = ak
      · subst hak
        have h3 : ¬ sym = s := hs
        simp [List.lookup, h3]
      · have h2 : (sym == ak) = false := by simp [hak]
        simp [List.lookup, h2, ih]

theorem appendCap_lookVals (s : String) (v : ℚ) (sym : String)
    (caps : List (String × List ℚ)) :
    lookVals (appendCap caps s v) sym =
      lookVals caps sym ++ (if s = sym then [v] else []) := by
  unfold appendCap
  cases hl : caps.lookup s with
  | some l =>
    simp only
    rw [lookVals, bumpKey_lookup]
    by_cases hsym : sym = s
    · subst hsym
      simp [lookVals, hl]
    · simp only [lookVals, if_neg hsym, if_neg (Ne.symm hsym)]
      cases caps.lookup sym <;> simp
  | none =>
    simp only
    rw [lookVals, lookup_append]
    by_cases hsym : sym = s
    · subst hsym
      simp [lookVals, hl, List.lookup]
    · have h2 : (sym == s) = false := by simp [hsym]
      simp only [lookVals, List.lookup, h2, if_neg (Ne.symm hsym)]
      cases caps.lookup sym <;> simp

theorem collectItems_lookVals (sym : String) :
    ∀ (items : List CGItem) (caps : List (String × List ℚ)),
      lookVals (collectItems caps items) sym =
        lookVals caps sym ++ observedVals items sym := by
  intro items
  induction items with
  | nil => intro caps; simp [collectItems, observedVals]
  | cons it rest ih =>
    intro caps
    cases hmc : it.market_cap with
    | none => simp [collectItems, hmc, observedVals, List.filterMap_cons, ih]
    | some v =>
      simp only [collectItems, hmc]
      rw [ih, appendCap_lookVals]
      by_cases hu : pyUpper it.symbol = sym
      · simp [observedVals, List.filterMap_cons, hmc, hu]
      · simp [observedVals, List.filterMap_cons, hmc, hu]

theorem collectItems_append (caps : List (String × List ℚ))
    (l₁ l₂ : List CGItem) :
    collectItems caps (l₁ ++ l₂) = collectItems (collectItems caps l₁) l₂ := by
  induction l₁ generalizing caps with
  | nil => simp [collectItems]
  | cons it rest ih =>
    cases hmc : it.market_cap <;> simp [collectItems, hmc, ih]

theorem collectPages_eq_flatten (pages : List (List CGItem)) :
    ∀ caps, collectPages caps pages = collectItems caps pages.flatten := by
  induction pages with
  | nil => intro caps; rfl
  | cons pg rest ih =>
    intro caps
    rw [List.flatten_cons, collectItems_append, collectPages, ih]

theorem lookup_map_resolve (l : List (String × List ℚ)) (k : String) :
    (l.map fun p => (p.1, resolveMid p.2)).lookup k =
      (l.lookup k).map resolveMid := by
  induction l with
  | nil => rfl
  | cons a rest ih =>
    obtain ⟨ak, av⟩ := a
    by_cases hk : k = ak
    · subst hk
      simp [List.lookup]
    · have h2 : (k == ak) = false := by simp [hk]
      simp [List.lookup, h2, ih]

/-- C1: the claim states that when both maps contain a symbol (and the
generic build ran because the exchange map has fewer than 50 entries),
the merged value is the exchange-scoped one.  This is false: `run_once`
executes `cg_caps.update(generic_caps)`, and `dict.update` overwrites
existing keys.  With exchange map `{"A": 1}` (one entry, so fewer than
50) and generic map `{"A": 2}`, the merged value of `"A"` is `2`, the
generic value, not the exchange-scoped value `1`. -/
theorem C1_counterexample :
    (mergeCaps [("A", (1 : ℚ))] [("A", (2 : ℚ))]).lookup "A" = some 2 ∧
    (2 : ℚ) ≠ 1 := by
  constructor
  · rfl
  · norm_num

/-- C1 (amended): in the merged market-cap mapping, when the generic
build runs (exchange-scoped map with fewer than 50 entries), a symbol
present in the generic mapping takes the generic value — generic entries
overwrite exchange-scoped ones — and a symbol absent from the generic
mapping keeps its exchange-scoped value.  When the exchange-scoped map
has at least 50 entries it is returned unchanged. -/
theorem C1_merge_generic_wins (e g : CapMap) (k : String)
    (h : e.length < 50) :
    (mergeCaps e g).lookup k = (g.lookup k).or (e.lookup k) := by
  unfold mergeCaps
  rw [if_pos h]
  exact dictUpdate_lookup e g k

/-- C1 witness: instantiates the amended merge theorem on concrete maps. -/
theorem C1_merge_generic_wins_witness :
    (mergeCaps [("A", (1 : ℚ)), ("B", (7 : ℚ))] [("A", (2 : ℚ))]).lookup "A" =
      (([("A", (2 : ℚ))] : CapMap).lookup "A").or
        (([("A", (1 : ℚ)), ("B", (7 : ℚ))] : CapMap).lookup "A") :=
  C1_merge_generic_wins [("A", (1 : ℚ)), ("B", (7 : ℚ))] [("A", (2 : ℚ))] "A"
    (by norm_num)

/-- C2: the claim states that duplicate observations in the generic
build are resolved to the *median* of the observed values.  The code
takes `sorted(lst)[len(lst)//2]`, the upper middle element, which is not
the median for even counts: for observed values `{10, 20}` the resolved
value is `20` while the median is `15`. -/
theorem C2_counterexample :
    (build_symbol_marketcap_map [[⟨"a", some 10⟩, ⟨"a", some 20⟩]]).lookup "A" =
      some 20 ∧
    statMedian [10, 20] = 15 ∧ (20 : ℚ) ≠ 15 := by
  refine ⟨by decide, ?_, by norm_num⟩
  norm_num [statMedian, sortAsc, insertSorted]

/-- C2 (amended): in the generic market-cap build, every symbol with at
least one observed value resolves to the element at index `⌊n/2⌋` of the
ascending-sorted list of its observed values (the upper median), which
coincides with the median whenever the number of observed values is odd
— in particular `{10, 20, 30}` resolves to `20`. -/
theorem C2_resolved_upper_median (pages : List (List CGItem)) (sym : String)
    (h : observedVals pages.flatten sym ≠ []) :
    (build_symbol_marketcap_map pages).lookup sym =
      some (resolveMid (observedVals pages.flatten sym)) ∧
    ∀ l : List ℚ, l.length % 2 = 1 → resolveMid l = statMedian l := by
  constructor
  · unfold build_symbol_marketcap_map
    rw [lookup_map_resolve, collectPages_eq_flatten]
    have hv := collectItems_lookVals sym pages.flatten []
    simp only [lookVals, List.lookup, Option.getD_none, List.nil_append] at hv
    cases hl : (collectItems [] pages.flatten).lookup sym with
    | none =>
      rw [hl] at hv
      simp only [Option.getD_none] at hv
      exact absurd hv.symm h
    | some l =>
      rw [hl] at hv
      simp only [Option.getD_some] at hv
      rw [hv]
      rfl
  · intro l hl
    simp [resolveMid, statMedian, hl]

/-- C2 witness: a concrete run observing `{30, 10, 20}` for symbol `A`
resolves to `20`, the median of the three observed values. -/
theorem C2_resolved_upper_median_witness :
    (build_symbol_marketcap_map c2Pages).lookup "A" =
      some (resolveMid (observedVals c2Pages.flatten "A")) ∧
    resolveMid [10, 20, 30] = statMedian [10, 20, 30] ∧
    resolveMid (observedVals c2Pages.flatten "A") = 20 := by
  have h := C2_resolved_upper_median c2Pages "A" (by decide)
  exact ⟨h.1, h.2 [10, 20, 30] (by norm_num), by decide⟩

/-- C7: the claim describes the normaliser as removing the `_SPBL`
*suffix* before stripping the quote asset.  The code executes
`symbol.replace("_SPBL", "")`, which removes every occurrence.  On the
non-empty symbol `"ABC_SPBLX"` (where `_SPBL` occurs mid-string) the code
yields base `"ABCX"`, while the claim's algorithm leaves `_SPBL` in place
and falls back to the first five characters, `"ABC_S"`. -/
theorem C7_counterexample :
    ("ABC_SPBLX" : String) ≠ "" ∧
    normalize "ABC_SPBLX" = some "ABCX" ∧
    normalizeSpec "ABC_SPBLX" = some "ABC_S" ∧
    (some "ABCX" : Option String) ≠ some "ABC_S" := by
  exact ⟨by decide, by decide, by decide, by decide⟩

/-- C7 (amended): for every pair symbol the normaliser removes `-`
separators and *every occurrence* of `_SPBL`, then strips a quote-asset
suffix checked in the order `USDT`, `USDC`, `USD`; if none matches it
takes the first 5 characters of the cleaned string; the output base
symbol is always uppercased.  In particular `ABCUSDT`, `ABC-USDT` and
`ABCUSDT_SPBL` normalise to `ABC`, and `XYZUSD` to `XYZ`. -/
theorem C7_normalizer_amended :
    (∀ symbol : String, normalize symbol = normalizeSpecAmended symbol) ∧
    normalize "ABCUSDT" = some "ABC" ∧
    normalize "ABC-USDT" = some "ABC" ∧
    normalize "ABCUSDT_SPBL" = some "ABC" ∧
    normalize "XYZUSD" = some "XYZ" := by
  refine ⟨fun symbol => rfl, by decide, by decide, by decide, by decide⟩

/-- C6: per-ticker behaviour of the candidate filter's market-cap check:
once a base symbol `b` is resolved, a ticker with no entry for `b` in the
market-cap mapping is dropped, and a ticker with entry `cap` is retained
if and only if `min_cap ≤ cap ≤ max_cap` (both bounds inclusive).  The
last two conjuncts restate drop/retain through `filter_small_caps`
itself, whose loop is `filterMap filter_one`. -/
theorem C6_cap_band (min_cap max_cap : ℚ) (caps : CapMap) (t : Ticker)
    (b : String) (hb : normalize (tickerSymbol t) = some b) :
    (caps.lookup b = none → filter_one min_cap max_cap caps t = none) ∧
    (∀ cap, caps.lookup b = some cap →
      ((filter_one min_cap max_cap caps t).isSome = true ↔
        (min_cap ≤ cap ∧ cap ≤ max_cap))) ∧
    (filter_one min_cap max_cap caps t = none →
      filter_small_caps [t] min_cap max_cap caps = []) ∧
    (∀ t', filter_one min_cap max_cap caps t = some t' →
      filter_small_caps [t] min_cap max_cap caps = [t']) := by
  refine ⟨?_, ?_, ?_, ?_⟩
  · intro hn
    simp [filter_one, hb, hn]
  · intro cap hc
    simp only [filter_one, hb, hc]
    by_cases hband : min_cap ≤ cap ∧ cap ≤ max_cap
    · simp [hband]
    · simp [hband]
  · intro hn
    simp [filter_small_caps, List.filterMap_cons, hn]
  · intro t' ht
    simp [filter_small_caps, List.filterMap_cons, ht]

/-- C6 witness: with band `[100, 200]`, a cap of exactly `100` is
retained, a cap of `99` is excluded, and an absent entry drops the
ticker. -/
theorem C6_cap_band_witness :
    (filter_one 100 200 [("ABC", (100 : ℚ))] c6t).isSome = true ∧
    (filter_one 100 200 [("ABC", (99 : ℚ))] c6t).isSome = false ∧
    filter_one 100 200 [("XYZ", (100 : ℚ))] c6t = none := by
  have h1 := C6_cap_band 100 200 [("ABC", (100 : ℚ))] c6t "ABC" (by decide)
  have h2 := C6_cap_band 100 200 [("ABC", (99 : ℚ))] c6t "ABC" (by decide)
  have h3 := C6_cap_band 100 200 [("XYZ", (100 : ℚ))] c6t "ABC" (by decide)
  refine ⟨?_, ?_, ?_⟩
  · exact (h1.2.1 100 (by decide)).mpr (by norm_num)
  · have hiff := h2.2.1 99 (by decide)
    have hnot : ¬ ((100 : ℚ) ≤ 99 ∧ (99 : ℚ) ≤ 200) := by norm_num
    cases hs : (filter_one 100 200 [("ABC", (99 : ℚ))] c6t).isSome
    · rfl
    · exact absurd (hiff.mp hs) hnot
  · exact h3.1 (by decide)

/-- C5: 24h-change normalisation in `pick_symbols` and the gain-ceiling
check: a `%`-suffixed string parses to the percentage before the `%`; a
bare numeric value of magnitude below 2 is scaled ×100 and one of
magnitude at least 2 is taken unchanged; and a candidate whose change
could not be determined (`_24h_change_pct is None`) is never excluded by
the 24h-gain ceiling. -/
theorem C5_change_normalization :
    (∀ q : ℚ, tryParse (.pctStr (some q)) = some q) ∧
    (∀ q : ℚ, |q| < 2 → tryParse (.numLike q) = some (q * 100)) ∧
    (∀ q : ℚ, ¬ |q| < 2 → tryParse (.numLike q) = some q) ∧
    (∀ (tickers : List Ticker) (min_cap max_cap gain_ceiling : ℚ)
        (cg_caps : CapMap) (t : Ticker),
      t ∈ filter_small_caps
            (tickers.map fun u => { u with chg24 := extract_change u })
            min_cap max_cap cg_caps →
      t.chg24 = none →
      t ∈ pick_symbols tickers min_cap max_cap gain_ceiling cg_caps) := by
  refine ⟨fun q => rfl, ?_, ?_, ?_⟩
  · intro q h
    simp [tryParse, h]
  · intro q h
    simp [tryParse, h]
  · intro tickers mn mx gc caps t hmem hchg
    simp only [pick_symbols, List.mem_filter]
    exact ⟨hmem, by simp [hchg]⟩

/-- C5 witness: `"1.23%"` parses to `1.23`; `0.0123` scales to `1.23`;
`5.0` stays `5.0`; and a candidate with an unparseable change survives
the ceiling check. -/
theorem C5_change_normalization_witness :
    tryParse (.pctStr (some (123 / 100))) = some (123 / 100) ∧
    tryParse (.numLike (123 / 10000)) = some ((123 / 10000) * 100) ∧
    ((123 : ℚ) / 10000) * 100 = 123 / 100 ∧
    tryParse (.numLike 5) = some 5 ∧
    c5tAnn ∈ pick_symbols [c5t] 100 200 30 [("ABC", (150 : ℚ))] := by
  refine ⟨C5_change_normalization.1 (123 / 100),
          C5_change_normalization.2.1 (123 / 10000) (by norm_num [abs]),
          by norm_num,
          C5_change_normalization.2.2.1 5 (by norm_num [abs]),
          C5_change_normalization.2.2.2 [c5t] 100 200 30 [("ABC", (150 : ℚ))]
            c5tAnn (by decide) rfl⟩

theorem compute_signal_some (env : Option PatternFuncs)
    (df1 df15 : List IndRow) (sig : Signal)
    (h : compute_signal env df1 df15 = some sig) :
    ∃ (r1 r15 : IndRow) (vs : Bool),
      df1.getLast? = some r1 ∧ df15.getLast? = some r15 ∧
      volume_spike df15 2 = some vs ∧
      sig.conditions =
        [("rsi_cross_50", rsi_cross_cond df1 r1),
         ("macd_bullish_cross", macd_cross_cond df1 r1),
         ("price_above_ema20_50",
            decide (r1.close > r1.ema20) && decide (r1.close > r1.ema50)),
         ("ema20_gt_ema50", decide (r1.ema20 > r1.ema50)),
         ("bullish_pattern", (detect_bullish_patterns env df1).any fun p => p.2),
         ("vol_spike_15m", vs),
         ("rsi_15m_gt_50", decide (r15.rsi > 50)),
         ("break_resistance_15m", recent_resistance_break df15 20),
         ("lunar_trending", false),
         ("news_positive", false)] ∧
      sig.score = sig.conditions.countP (fun p => p.2) := by
  unfold compute_signal at h
  cases h1 : df1.getLast? with
  | none => rw [h1] at h; exact absurd h (by simp)
  | some r1 =>
    cases h15 : df15.getLast? with
    | none => rw [h1, h15] at h; exact absurd h (by simp)
    | some r15 =>
      cases hvs : volume_spike df15 2 with
      | none => rw [h1, h15, hvs] at h; exact absurd h (by simp)
      | some vs =>
        rw [h1, h15, hvs] at h
        simp only [Option.pure_def, Option.bind_eq_bind, Option.some_bind,
          Option.some.injEq] at h
        exact ⟨r1, r15, vs, rfl, rfl, rfl, by rw [← h], by rw [← h]⟩

theorem listMax_cons_isSome (a : ℚ) (xs : List ℚ) :
    ∃ m, listMax (a :: xs) = some m := by
  exact ⟨_, rfl⟩

theorem listMax_lt_iff (c : ℚ) :
    ∀ (l : List ℚ) (m : ℚ), listMax l = some m →
      (m < c ↔ ∀ x ∈ l, x < c) := by
  intro l
  induction l with
  | nil => intro m h; cases h
  | cons a xs ih =>
    intro m h
    simp only [listMax] at h
    injection h with h'
    cases hx : listMax xs with
    | none =>
      rw [hx] at h'
      subst h'
      cases xs with
      | nil => simp
      | cons b ys => simp [listMax] at hx
    | some mx =>
      rw [hx] at h'
      subst h'
      constructor
      · intro hlt x hmem
        rcases List.mem_cons.mp hmem with rfl | hmem'
        · exact lt_of_le_of_lt (le_max_left _ _) hlt
        · exact (ih mx hx).mp (lt_of_le_of_lt (le_max_right _ _) hlt) x hmem'
      · intro hall
        exact max_lt (hall a (List.mem_cons_self a xs))
          ((ih mx hx).mpr fun x hx' => hall x (List.mem_cons_of_mem a hx'))

theorem highWindow_length (df : List IndRow) (lookback : ℕ)
    (hlen : lookback + 1 ≤ df.length) :
    (highWindow df lookback).length = lookback := by
  simp only [highWindow, List.length_map, List.length_take, List.length_drop]
  omega

/-- C8: with at least `lookback + 1` candles (and a positive lookback,
as in the default 20), the resistance-break helper returns true if and
only if the latest close strictly exceeds every high of the `lookback`
candles preceding the latest one — equivalently, their maximum; a close
exactly equal to that maximum therefore yields false. -/
theorem C8_resistance_break (df : List IndRow) (lookback : ℕ) (c : IndRow)
    (hlen : lookback + 1 ≤ df.length) (hlb : 1 ≤ lookback)
    (hc : df.getLast? = some c) :
    (recent_resistance_break df lookback = true ↔
      ∀ x ∈ highWindow df lookback, x < c.close) := by
  unfold recent_resistance_break
  rw [if_neg (by omega : ¬ df.length < lookback + 1)]
  have hwl := highWindow_length df lookback hlen
  obtain ⟨a, xs, hcons⟩ : ∃ a xs, highWindow df lookback = a :: xs := by
    cases hw : highWindow df lookback with
    | nil => rw [hw] at hwl; simp at hwl; omega
    | cons a xs => exact ⟨a, xs, rfl⟩
  rw [hcons]
  obtain ⟨m, hm⟩ := listMax_cons_isSome a xs
  rw [hm]
  have hcl : (df.map IndRow.close).getLast? = some c.close := by
    rw [List.getLast?_map, hc]; rfl
  rw [hcl]
  show decide (c.close > m) = true ↔ ∀ x ∈ a :: xs, x < c.close
  rw [decide_eq_true_eq]
  exact listMax_lt_iff c.close _ m hm

/-- C8 witness: with lookback 1, a latest close of 7 above the preceding
high 5 breaks resistance; a latest close exactly equal to the preceding
maximum high (5) does not. -/
theorem C8_resistance_break_witness :
    recent_resistance_break [c8row5, c8row7] 1 = true ∧
    recent_resistance_break [c8row5, c8row5] 1 = false := by
  constructor
  · exact (C8_resistance_break [c8row5, c8row7] 1 c8row7 (by decide) (by decide)
      rfl).mpr (by decide)
  · have hiff := C8_resistance_break [c8row5, c8row5] 1 c8row5 (by decide)
      (by decide) rfl
    cases hb : recent_resistance_break [c8row5, c8row5] 1
    · rfl
    · have := hiff.mp hb
      have h5 : (5 : ℚ) < 5 := this 5 (by decide)
      exact absurd h5 (by norm_num)

/-- C10: a series with fewer than `lookback + 1` rows makes the
resistance-break helper return false (the embedding is total: the guard
precedes any indexing, so no error is raised), and consequently
`break_resistance_15m` is false whenever the fast frame has fewer than
21 rows. -/
theorem C10_short_series_no_break :
    (∀ (df : List IndRow) (lookback : ℕ), df.length < lookback + 1 →
      recent_resistance_break df lookback = false) ∧
    (∀ (env : Option PatternFuncs) (df1 df15 : List IndRow) (sig : Signal),
      compute_signal env df1 df15 = some sig → df15.length < 21 →
      sig.conditions.lookup "break_resistance_15m" = some false) := by
  have hshort : ∀ (df : List IndRow) (lookback : ℕ),
      df.length < lookback + 1 → recent_resistance_break df lookback = false := by
    intro df lookback h
    unfold recent_resistance_break
    rw [if_pos h]
  refine ⟨hshort, ?_⟩
  intro env df1 df15 sig h hlen
  obtain ⟨r1, r15, vs, h1, h15, hvs, hconds, hscore⟩ :=
    compute_signal_some env df1 df15 sig h
  calc sig.conditions.lookup "break_resistance_15m"
      = some (recent_resistance_break df15 20) := by rw [hconds]; rfl
    _ = some false := by rw [hshort df15 20 (by omega)]

theorem compute_signal_eval (x y z : ℚ) :
    compute_signal none [mkRow x, mkRow y] [mkRow z] = some (sigRsi x y z) :=
  rfl

/-- C10 witness: a 1-row fast frame (fewer than 21 candles). -/
theorem C10_short_series_no_break_witness :
    recent_resistance_break [c8row7] 20 = false ∧
    (sigRsi 48 65 60).conditions.lookup "break_resistance_15m" = some false := by
  refine ⟨C10_short_series_no_break.1 [c8row7] 20 (by decide), ?_⟩
  exact C10_short_series_no_break.2 none [mkRow 48, mkRow 65] [mkRow 60] _
    (compute_signal_eval 48 65 60) (by decide)

/-- C3: whenever the scorer returns a signal, its condition set has
exactly the ten named slots in insertion order, its score (a natural
number, hence `≥ 0`) equals the number of true conditions and is at most
10, and the two sentiment placeholders are false. -/
theorem C3_condition_set (env : Option PatternFuncs) (df1 df15 : List IndRow)
    (sig : Signal) (h : compute_signal env df1 df15 = some sig) :
    sig.conditions.map Prod.fst = condNames ∧
    sig.score = sig.conditions.countP (fun p => p.2) ∧
    sig.score ≤ 10 ∧
    sig.conditions.lookup "lunar_trending" = some false ∧
    sig.conditions.lookup "news_positive" = some false := by
  obtain ⟨r1, r15, vs, h1, h15, hvs, hconds, hscore⟩ :=
    compute_signal_some env df1 df15 sig h
  refine ⟨by rw [hconds]; rfl, hscore, ?_, by rw [hconds]; rfl,
    by rw [hconds]; rfl⟩
  rw [hscore]
  calc sig.conditions.countP (fun p => p.2) ≤ sig.conditions.length :=
        List.countP_le_length (fun p : String × Bool => p.2)
    _ = 10 := by rw [hconds]; rfl

/-- C3 witness: a concrete run (slow RSI 48→65, fast RSI 60, no pattern
module). -/
theorem C3_condition_set_witness :
    compute_signal none [mkRow 48, mkRow 65] [mkRow 60] =
      some (sigRsi 48 65 60) ∧
    (sigRsi 48 65 60).conditions.map Prod.fst = condNames ∧
    (sigRsi 48 65 60).score ≤ 10 ∧
    (sigRsi 48 65 60).conditions.lookup "lunar_trending" = some false ∧
    (sigRsi 48 65 60).conditions.lookup "news_positive" = some false := by
  have hev := compute_signal_eval 48 65 60
  have h := C3_condition_set none [mkRow 48, mkRow 65] [mkRow 60] _ hev
  exact ⟨hev, h.1, h.2.2.1, h.2.2.2.1, h.2.2.2.2⟩

/-- C4: whenever the scorer returns a signal, `rsi_cross_50` is true iff
the RSI one bar prior was `≤ 50` and the current RSI lies strictly in
`(50, 80)` (the prior bar existing exactly when the slow frame has at
least 2 rows), and it is false when the slow frame has fewer than 2
rows. -/
theorem C4_rsi_cross (env : Option PatternFuncs) (df1 df15 : List IndRow)
    (sig : Signal) (h : compute_signal env df1 df15 = some sig) :
    (∀ rp r1, df1.dropLast.getLast? = some rp → df1.getLast? = some r1 →
      (sig.conditions.lookup "rsi_cross_50" = some true ↔
        (rp.rsi ≤ 50 ∧ 50 < r1.rsi ∧ r1.rsi < 80))) ∧
    (df1.length < 2 → sig.conditions.lookup "rsi_cross_50" = some false) := by
  obtain ⟨r1, r15, vs, h1, h15, hvs, hconds, hscore⟩ :=
    compute_signal_some env df1 df15 sig h
  have hlook : sig.conditions.lookup "rsi_cross_50" =
      some (rsi_cross_cond df1 r1) := by rw [hconds]; rfl
  constructor
  · intro rp r1' hp h1'
    rw [h1] at h1'
    injection h1' with he
    subst he
    rw [hlook]
    unfold rsi_cross_cond
    rw [hp]
    simp [Bool.and_eq_true, decide_eq_true_eq]
  · intro hlen
    have hp : df1.dropLast.getLast? = none := by
      rw [List.getLast?_eq_none_iff, ← List.length_eq_zero,
        List.length_dropLast]
      omega
    rw [hlook]
    unfold rsi_cross_cond
    rw [hp]

/-- C4 witness: slow RSI series `[48, 65]` crosses (true); `[48, 85]`
lands in overbought territory (false); `[52, 65]` was already above 50
(false). -/
theorem C4_rsi_cross_witness :
    compute_signal none [mkRow 48, mkRow 65] [mkRow 60] =
      some (sigRsi 48 65 60) ∧
    (sigRsi 48 65 60).conditions.lookup "rsi_cross_50" = some true ∧
    compute_signal none [mkRow 48, mkRow 85] [mkRow 60] =
      some (sigRsi 48 85 60) ∧
    (sigRsi 48 85 60).conditions.lookup "rsi_cross_50" = some false ∧
    compute_signal none [mkRow 52, mkRow 65] [mkRow 60] =
      some (sigRsi 52 65 60) ∧
    (sigRsi 52 65 60).conditions.lookup "rsi_cross_50" = some false := by
  have hA := compute_signal_eval 48 65 60
  refine ⟨hA, ?_, compute_signal_eval 48 85 60, by decide,
    compute_signal_eval 52 65 60, by decide⟩
  exact ((C4_rsi_cross none [mkRow 48, mkRow 65] [mkRow 60] _ hA).1
    (mkRow 48) (mkRow 65) rfl rfl).mpr
    ⟨by norm_num [mkRow], by norm_num [mkRow], by norm_num [mkRow]⟩

theorem detect_lookup_be (pf : PatternFuncs) (df : List IndRow) :
    (detect_bullish_patterns (some pf) df).lookup "bullish_engulfing" =
      some (evalPattern df "bullish_engulfing" pf.bullish_engulfing) := rfl

theorem detect_lookup_hammer (pf : PatternFuncs) (df : List IndRow) :
    (detect_bullish_patterns (some pf) df).lookup "hammer" =
      some (evalPattern df "hammer" pf.hammer) := rfl

theorem detect_lookup_ms (pf : PatternFuncs) (df : List IndRow) :
    (detect_bullish_patterns (some pf) df).lookup "morning_star" =
      some (evalPattern df "morning_star" pf.morning_star) := rfl

theorem detect_lookup_tws (pf : PatternFuncs) (df : List IndRow) :
    (detect_bullish_patterns (some pf) df).lookup "three_white_soldiers" =
      some (evalPattern df "three_white_soldiers" pf.three_white_soldiers) :=
  rfl

theorem evalPattern_raise (df : List IndRow) (name : String) (f : PatternFn)
    (h : f df = none) : evalPattern df name (some f) = false := by
  have hred : evalPattern df name (some f) =
      (match f df with
       | none => false
       | some cols =>
         match cols.lookup name with
         | none => false
         | some col => col.getLast? == some true) := rfl
  rw [hred, h]

/-- C9: the pattern detector always reports exactly the four pattern
names; an unavailable candlestick module yields all-false; a missing
(`getattr` returned `None`) or raising predicate yields false for that
pattern; and each pattern's result depends only on its own predicate
(the detector is total, so no predicate failure propagates to the
caller). -/
theorem C9_pattern_isolation :
    (∀ (env : Option PatternFuncs) (df : List IndRow),
      (detect_bullish_patterns env df).map Prod.fst = BULLISH_PATTERNS) ∧
    (∀ df : List IndRow,
      detect_bullish_patterns none df =
        BULLISH_PATTERNS.map fun n => (n, false)) ∧
    (∀ (pf : PatternFuncs) (df : List IndRow) (name : String),
      name ∈ BULLISH_PATTERNS → pf.fnFor name = none →
      (detect_bullish_patterns (some pf) df).lookup name = some false) ∧
    (∀ (pf : PatternFuncs) (df : List IndRow) (name : String) (f : PatternFn),
      name ∈ BULLISH_PATTERNS → pf.fnFor name = some f → f df = none →
      (detect_bullish_patterns (some pf) df).lookup name = some false) ∧
    (∀ (pf pf' : PatternFuncs) (df : List IndRow) (name : String),
      name ∈ BULLISH_PATTERNS → pf.fnFor name = pf'.fnFor name →
      (detect_bullish_patterns (some pf) df).lookup name =
        (detect_bullish_patterns (some pf') df).lookup name) := by
  refine ⟨?_, fun df => rfl, ?_, ?_, ?_⟩
  · intro env df
    cases env <;> rfl
  · intro pf df name hmem hn
    fin_cases hmem
    · rw [detect_lookup_be]
      have hn' : pf.bullish_engulfing = none := hn
      rw [hn']
      rfl
    · rw [detect_lookup_hammer]
      have hn' : pf.hammer = none := hn
      rw [hn']
      rfl
    · rw [detect_lookup_ms]
      have hn' : pf.morning_star = none := hn
      rw [hn']
      rfl
    · rw [detect_lookup_tws]
      have hn' : pf.three_white_soldiers = none := hn
      rw [hn']
      rfl
  · intro pf df name f hmem hf hfd
    fin_cases hmem
    · rw [detect_lookup_be]
      have hf' : pf.bullish_engulfing = some f := hf
      rw [hf', evalPattern_raise df _ f hfd]
    · rw [detect_lookup_hammer]
      have hf' : pf.hammer = some f := hf
      rw [hf', evalPattern_raise df _ f hfd]
    · rw [detect_lookup_ms]
      have hf' : pf.morning_star = some f := hf
      rw [hf', evalPattern_raise df _ f hfd]
    · rw [detect_lookup_tws]
      have hf' : pf.three_white_soldiers = some f := hf
      rw [hf', evalPattern_raise df _ f hfd]
  · intro pf pf' df name hmem hfn
    fin_cases hmem
    · rw [detect_lookup_be, detect_lookup_be]
      have he : pf.bullish_engulfing = pf'.bullish_engulfing := hfn
      rw [he]
    · rw [detect_lookup_hammer, detect_lookup_hammer]
      have he : pf.hammer = pf'.hammer := hfn
      rw [he]
    · rw [detect_lookup_ms, detect_lookup_ms]
      have he : pf.morning_star = pf'.morning_star := hfn
      rw [he]
    · rw [detect_lookup_tws, detect_lookup_tws]
      have he : pf.three_white_soldiers = pf'.three_white_soldiers := hfn
      rw [he]

/-- C9 witness: a missing predicate and a raising predicate both report
false; a predicate's result is unchanged when unrelated predicates
differ. -/
theorem C9_pattern_isolation_witness :
    (detect_bullish_patterns (some c9pf) []).map Prod.fst =
      BULLISH_PATTERNS ∧
    detect_bullish_patterns none [] =
      (BULLISH_PATTERNS.map fun n => (n, false)) ∧
    (detect_bullish_patterns (some c9pf) []).lookup "bullish_engulfing" =
      some false ∧
    (detect_bullish_patterns (some c9pf) []).lookup "hammer" = some false ∧
    (detect_bullish_patterns (some c9pf) []).lookup "morning_star" =
      (detect_bullish_patterns (some c9pf2) []).lookup "morning_star" :=
  ⟨C9_pattern_isolation.1 (some c9pf) [],
   C9_pattern_isolation.2.1 [],
   C9_pattern_isolation.2.2.1 c9pf [] "bullish_engulfing"
     (by simp [BULLISH_PATTERNS]) rfl,
   C9_pattern_isolation.2.2.2.1 c9pf [] "hammer" c9fail
     (by simp [BULLISH_PATTERNS]) rfl rfl,
   C9_pattern_isolation.2.2.2.2 c9pf c9pf2 [] "morning_star"
     (by simp [BULLISH_PATTERNS]) rfl⟩

end BitgetBot
